import Mathlib

set_option maxHeartbeats 1000000

namespace ObsidianYaml

/-- Dynamic JSON-like value, the data model of the rule engine (spec section 3).
Models the JavaScript values carried in YAML front matter: null, booleans,
numbers, strings, arrays, and insertion-ordered string-keyed objects.
JavaScript numbers are modeled as rationals, which is exact for every decimal
literal the parsers of this code base produce. -/
inductive JsValue where
  | null : JsValue
  | bool : Bool → JsValue
  | num : Rat → JsValue
  | str : String → JsValue
  | arr : List JsValue → JsValue
  | obj : List (String × JsValue) → JsValue

/-- Lookup of an own key in an insertion-ordered object. -/
def lookupKey (kvs : List (String × JsValue)) (k : String) : Option JsValue :=
  match kvs with
  | [] => none
  | (k2, v) :: rest => if k2 = k then some v else lookupKey rest k

/-- Replace the value stored under an existing key, keeping its position;
if the key is absent the list is returned unchanged. -/
def replaceKey (kvs : List (String × JsValue)) (k : String) (nv : JsValue) :
    List (String × JsValue) :=
  match kvs with
  | [] => []
  | (k2, v) :: rest =>
      if k2 = k then (k2, nv) :: rest else (k2, v) :: replaceKey rest k nv

/-- Write a key: replace in place when present, append at the end otherwise
(JavaScript assignment on a plain object keeps insertion order this way). -/
def writeKey (kvs : List (String × JsValue)) (k : String) (nv : JsValue) :
    List (String × JsValue) :=
  match kvs with
  | [] => [(k, nv)]
  | (k2, v) :: rest =>
      if k2 = k then (k2, nv) :: rest else (k2, v) :: writeKey rest k nv

/-- Path segment: a field name or a (possibly negative) array index
(spec section 3, Path). -/
inductive PathSeg where
  | property : String → PathSeg
  | index : Int → PathSeg
deriving DecidableEq

/-- Modelled from the spec: the function resolvePath of src/parser/pathResolver.ts
is not under src (only its tests and callers are). Spec section 4.1: walk the
segments; a negative index i on a sequence of length n normalizes to n + i;
an index outside bounds, an index applied to a non-sequence, or a field applied
to a non-map resolves to none. Cross-checked against tests/unit/parser/pathResolver.test.ts. -/
def resolvePath (v : JsValue) (p : List PathSeg) : Option JsValue :=
  match p with
  | [] => some v
  | seg :: rest =>
      match v, seg with
      | .obj kvs, .property k =>
          match lookupKey kvs k with
          | some v2 => resolvePath v2 rest
          | none => none
      | .arr xs, .index i =>
          let j : Int := if i < 0 then (xs.length : Int) + i else i
          if h : 0 ≤ j ∧ j < (xs.length : Int) then
            resolvePath (xs.get ⟨j.toNat, by omega⟩) rest
          else none
      | _, _ => none

/-- Modelled from the spec: pathExists of src/parser/pathResolver.ts is not
under src. Spec section 4.1: true iff the path resolves to a present entry,
including an explicit null. -/
def pathExists (v : JsValue) (p : List PathSeg) : Bool :=
  (resolvePath v p).isSome

/-- Fresh container created while auto-vivifying a missing parent: the kind
depends on the next segment (spec section 4.1, set). -/
def vivify : PathSeg → JsValue
  | .property _ => .obj []
  | .index _ => .arr []

/-- Write one final segment into a value. An index i greater or equal to the
current length extends the sequence with null fillers first, matching the
behavior pinned by tests/unit/parser/pathResolver.test.ts. Writes into a value
of the wrong kind are no-ops, like a silent JavaScript assignment on a
primitive. -/
def writeSeg (v : JsValue) (seg : PathSeg) (nv : JsValue) : JsValue :=
  match v, seg with
  | .obj kvs, .property k => .obj (writeKey kvs k nv)
  | .arr xs, .index i =>
      if i < 0 then
        let j : Int := (xs.length : Int) + i
        if 0 ≤ j ∧ j < (xs.length : Int) then
          .arr (xs.set j.toNat nv)
        else .arr xs
      else
        let j : Nat := i.toNat
        if j < xs.length then .arr (xs.set j nv)
        else .arr ((xs ++ List.replicate (j - xs.length) .null) ++ [nv])
  | _, _ => v

/-- Read the child a set operation walks through; none when missing or when
the existing child is not a container of any kind. -/
def childForSet (v : JsValue) (seg : PathSeg) : Option JsValue :=
  match v, seg with
  | .obj kvs, .property k =>
      match lookupKey kvs k with
      | some (.obj kvs2) => some (.obj kvs2)
      | some (.arr xs) => some (.arr xs)
      | _ => none
  | .arr xs, .index i =>
      let j : Int := if i < 0 then (xs.length : Int) + i else i
      if h : 0 ≤ j ∧ j < (xs.length : Int) then
        match xs.get ⟨j.toNat, by omega⟩ with
        | .obj kvs2 => some (.obj kvs2)
        | .arr xs2 => some (.arr xs2)
        | _ => none
      else none
  | _, _ => none

/-- Modelled from the spec: setPath of src/parser/pathResolver.ts is not under
src. Spec section 4.1: auto-vivifies missing parents (a field segment creates a
map, an index segment creates a sequence), extends sequences with null fillers
when writing past the end, and treats the empty path as a no-op. Cross-checked
against tests/unit/parser/pathResolver.test.ts. -/
def setPath (v : JsValue) (p : List PathSeg) (nv : JsValue) : JsValue :=
  match p with
  | [] => v
  | [seg] => writeSeg v seg nv
  | seg :: next :: rest =>
      let child :=
        match childForSet v seg with
        | some c => c
        | none => vivify next
      writeSeg v seg (setPath child (next :: rest) nv)

/-- Substring membership helper: does the character list start with the given
pattern. -/
def leadMatch : List Char → List Char → Bool
  | [], _ => true
  | _ :: _, [] => false
  | a :: as, b :: bs => a == b && leadMatch as bs

/-- Modelled JavaScript String.prototype.trim, written over character lists
so that it evaluates inside the kernel. -/
def jsTrim (s : String) : String :=
  String.mk (((s.toList.dropWhile Char.isWhitespace).reverse.dropWhile
    Char.isWhitespace).reverse)

/-- ASCII lowering of one character; the parsers only compare against ASCII
keywords, so the Unicode cases of toLowerCase are irrelevant here. -/
def asciiLower (c : Char) : Char :=
  if 65 ≤ c.toNat && c.toNat ≤ 90 then Char.ofNat (c.toNat + 32) else c

/-- Modelled JavaScript String.prototype.toLowerCase over character lists. -/
def jsToLower (s : String) : String :=
  String.mk (s.toList.map asciiLower)

/-- Modelled JavaScript String.prototype.startsWith. -/
def jsStartsWith (s p : String) : Bool := leadMatch p.toList s.toList

/-- Modelled JavaScript String.prototype.endsWith. -/
def jsEndsWith (s p : String) : Bool := leadMatch p.toList.reverse s.toList.reverse

/-- Substring membership on character lists. -/
def listHasSub (sub : List Char) : List Char → Bool
  | [] => leadMatch sub []
  | c :: rest => leadMatch sub (c :: rest) || listHasSub sub rest

/-- Substring membership on strings, mirroring the String.prototype.includes
checks of the source. -/
def strHasSub (s sub : String) : Bool :=
  listHasSub sub.toList s.toList

/-- Value of a list of decimal digit characters. -/
def digitsVal (cs : List Char) : Nat :=
  cs.foldl (fun a c => a * 10 + (c.toNat - 48)) 0

/-- Modelled JavaScript Number(string) conversion, restricted to the plain
decimal grammar actually exercised by the code base: optional sign, digits,
optional fraction; the empty or all-blank string converts to 0; every other
shape is NaN, represented as none. Hexadecimal and exponent forms are not
modeled. -/
def jsToNumber (s : String) : Option Rat :=
  let t := jsTrim s
  if t.length = 0 then some 0
  else
    let cs := t.toList
    let (neg, rest) :=
      match cs with
      | '-' :: r => (true, r)
      | '+' :: r => (false, r)
      | r => (false, r)
    let ds := rest.takeWhile Char.isDigit
    let rest2 := rest.drop ds.length
    let build (ip : List Char) (fp : List Char) : Rat :=
      let mag : Rat :=
        if fp.isEmpty then (digitsVal ip : Rat)
        else (digitsVal ip : Rat) + (digitsVal fp : Rat) / ((10 : Rat) ^ fp.length)
      if neg then -mag else mag
    match rest2 with
    | [] => if ds.isEmpty then none else some (build ds [])
    | '.' :: fs =>
        if fs.all Char.isDigit && !(ds.isEmpty && fs.isEmpty) then
          some (build ds fs)
        else none
    | _ => none

/-- Modelled JavaScript number-to-string conversion. Integers print exactly;
non-integer rationals print as num/den, which no theorem below depends on. -/
def jsNumToString (q : Rat) : String :=
  if q.den = 1 then toString q.num
  else toString q.num ++ "/" ++ toString q.den

mutual
/-- Modelled JavaScript String(value) conversion: null prints null, arrays
join their elements with commas, plain objects print the object tag. -/
def jsValueToString : JsValue → String
  | .null => "null"
  | .bool b => if b then "true" else "false"
  | .num q => jsNumToString q
  | .str s => s
  | .arr xs => joinElems xs
  | .obj _ => "[object Object]"

/-- Array join with comma separators; null elements join as empty strings,
as Array.prototype.join does. -/
def joinElems : List JsValue → String
  | [] => ""
  | [x] =>
      match x with
      | .null => ""
      | v => jsValueToString v
  | x :: y :: rest =>
      (match x with
       | .null => ""
       | v => jsValueToString v) ++ "," ++ joinElems (y :: rest)
end

/-- Numeric value of a boolean under JavaScript ToNumber. -/
def boolNum (b : Bool) : Rat := if b then 1 else 0

/-- Equality of two optional numbers; NaN (none) is equal to nothing. -/
def optNumEq (a b : Option Rat) : Bool :=
  match a, b with
  | some x, some y => x == y
  | _, _ => false

/-- JavaScript abstract (loose) equality between primitive values: null only
equals null, booleans coerce to numbers, and a string compared with a number
is converted with Number first. -/
def looseEqPrim : JsValue → JsValue → Bool
  | .null, .null => true
  | .null, _ => false
  | _, .null => false
  | .num x, .num y => x == y
  | .str x, .str y => x == y
  | .bool x, .bool y => x == y
  | .num x, .str s => optNumEq (some x) (jsToNumber s)
  | .str s, .num y => optNumEq (jsToNumber s) (some y)
  | .bool b, .num y => boolNum b == y
  | .num x, .bool b => x == boolNum b
  | .bool b, .str s => optNumEq (some (boolNum b)) (jsToNumber s)
  | .str s, .bool b => optNumEq (jsToNumber s) (some (boolNum b))
  | _, _ => false

/-- JavaScript abstract (loose) equality, the == operator used by the
comparison evaluator. Two containers compare by reference; the left operand
comes from the front matter and the right from the parsed literal, so they are
always distinct objects and compare false. A container against a primitive is
first converted to its primitive string. -/
def looseEq (a b : JsValue) : Bool :=
  match a, b with
  | .arr _, .arr _ => false
  | .arr _, .obj _ => false
  | .obj _, .arr _ => false
  | .obj _, .obj _ => false
  | .arr _, .null => false
  | .obj _, .null => false
  | .null, .arr _ => false
  | .null, .obj _ => false
  | .arr xs, p => looseEqPrim (.str (jsValueToString (.arr xs))) p
  | .obj kvs, p => looseEqPrim (.str (jsValueToString (.obj kvs))) p
  | p, .arr xs => looseEqPrim p (.str (jsValueToString (.arr xs)))
  | p, .obj kvs => looseEqPrim p (.str (jsValueToString (.obj kvs)))
  | x, y => looseEqPrim x y

/-! Security and performance limits, from src/constants.ts (LIMITS). Only the
fields the embedded code reads are carried. -/

/-- Maximum regex pattern length, src/constants.ts LIMITS.MAX_REGEX_LENGTH. -/
def MAX_REGEX_LENGTH : Nat := 200

/-- Regex execution timeout in milliseconds, src/constants.ts
LIMITS.REGEX_TIMEOUT_MS. The wall clock itself is host-owned. -/
def REGEX_TIMEOUT_MS : Nat := 500

/-- Opening brace character, written numerically. -/
def openBraceChar : Char := Char.ofNat 123

/-- Closing brace character, written numerically. -/
def closeBraceChar : Char := Char.ofNat 125

/-- Test for the first dangerous shape of src/constants.ts: nested
quantifiers, the literal two-character sequences plus-star or star-plus. -/
def hasNestedQuant (p : String) : Bool :=
  strHasSub p "+*" || strHasSub p "*+"

/-- Helper: after an opening brace, one or more digits, a comma, then a
closing brace. -/
def digitsCommaClose (cs : List Char) : Bool :=
  let ds := cs.takeWhile Char.isDigit
  !ds.isEmpty &&
    (match cs.drop ds.length with
     | a :: b :: _ => a == ',' && b == closeBraceChar
     | _ => false)

/-- Test for the second dangerous shape of src/constants.ts: open-ended
repetition, a brace, digits, a comma and a closing brace. -/
def hasOpenRepetition (p : String) : Bool :=
  go p.toList
where
  go : List Char → Bool
    | [] => false
    | c :: rest => (c == openBraceChar && digitsCommaClose rest) || go rest

/-- Test for the third dangerous shape of src/constants.ts: two adjacent
dot-star groups. -/
def hasRepeatedDotStar (p : String) : Bool :=
  strHasSub p ".*.*"

/-- Test for the fourth dangerous shape of src/constants.ts: repeated
quantifier characters, double plus or double star. -/
def hasRepeatedQuant (p : String) : Bool :=
  strHasSub p "++" || strHasSub p "**"

/-- The deny-list DANGEROUS_REGEX_PATTERNS of src/constants.ts, with each
regular expression modeled as the string predicate it computes. -/
def DANGEROUS_REGEX_PATTERNS : List (String → Bool) :=
  [hasNestedQuant, hasOpenRepetition, hasRepeatedDotStar, hasRepeatedQuant]

/-- Allowed regex flag characters, the gimsuvy set of the literal splitter in
evaluateRegex. -/
def isFlagChar (c : Char) : Bool :=
  c == 'g' || c == 'i' || c == 'm' || c == 's' || c == 'u' || c == 'v' || c == 'y'

/-- Result of splitting a slash-delimited regex literal. -/
structure RegexParts where
  pattern : String
  flags : String
deriving DecidableEq

/-- Lazy search for the closing slash: the first slash after a non-empty body
whose suffix consists only of flag characters, matching the backtracking of
the anchored lazy pattern used in evaluateRegex. -/
def findSlashSplit : List Char → List Char → Option (List Char × List Char)
  | _, [] => none
  | acc, c :: rest =>
      if c == '/' && !acc.isEmpty && rest.all isFlagChar then
        some (acc.reverse, rest)
      else findSlashSplit (c :: acc) rest

/-- Split a slash-delimited literal of the form slash pattern slash flags,
as evaluateRegex does with its anchored lazy match; none when the input does
not have that shape. -/
def splitRegexLit (p : String) : Option RegexParts :=
  match p.toList with
  | '/' :: rest =>
      match findSlashSplit [] rest with
      | some (pat, fl) => some ⟨String.mk pat, String.mk fl⟩
      | none => none
  | _ => none

/-- Behavior of the host regex engine: pattern, flags and subject in, either a
boolean match result or a thrown message (construction failure or timeout).
The engine itself is a JavaScript library, external to the code base. -/
def RegexMatcher : Type := String → String → String → Except String Bool

/-- Embedded from src/evaluator/conditionEvaluator.ts evaluateRegex: convert
the value to a string, split the slash literal, reject over-long patterns,
reject patterns on the deny list, and only then hand the pattern to the host
regex engine; thrown messages that do not mention a timeout are rewrapped as
an invalid-regex error. -/
def evaluateRegex (matcher : RegexMatcher) (value : JsValue) (pattern : String) :
    Except String Bool :=
  let strValue := jsValueToString value
  match splitRegexLit pattern with
  | none => .error ("Invalid regex pattern: " ++ pattern)
  | some parts =>
      if parts.pattern.length > MAX_REGEX_LENGTH then
        .error ("Regex pattern too long (max " ++ toString MAX_REGEX_LENGTH ++
          " characters): " ++ parts.pattern)
      else if DANGEROUS_REGEX_PATTERNS.any (fun t => t parts.pattern) then
        .error ("Potentially unsafe regex pattern detected (could cause performance issues): "
          ++ parts.pattern)
      else
        match matcher parts.pattern parts.flags strValue with
        | .ok b => .ok b
        | .error m =>
            if strHasSub m "timeout" then .error m
            else .error ("Invalid regex: " ++ pattern)

/-! Condition AST, from src/types.ts as consumed by
src/evaluator/conditionEvaluator.ts and described in spec section 3. Paths are
carried as segment lists, the Path form of the spec data model. -/

/-- Comparison operators of the condition language. -/
inductive CmpOp where
  | eq | ne | gt | lt | ge | le | regexMatch
deriving DecidableEq

/-- Existence operator spelling. -/
inductive ExistOp where
  | existsOp | notExistsOp
deriving DecidableEq

/-- Type-check kinds. -/
inductive TypeKind where
  | stringT | numberT | booleanT | arrayT | objectT | nullT
deriving DecidableEq

/-- Empty-check operator spelling. -/
inductive EmptyOp where
  | empty | notEmpty
deriving DecidableEq

/-- Has operator spelling. -/
inductive HasOp where
  | has | notHas
deriving DecidableEq

/-- Boolean connective. -/
inductive BoolConn where
  | and | or
deriving DecidableEq

/-- Quantifier kind. -/
inductive QuantKind where
  | any | all
deriving DecidableEq

/-- Condition AST (spec section 3; src/types.ts). For a regex comparison the
right side carries the raw slash-delimited literal as a string value. -/
inductive ConditionAST where
  | comparison : List PathSeg → CmpOp → JsValue → ConditionAST
  | existence : List PathSeg → ExistOp → ConditionAST
  | typeCheck : List PathSeg → TypeKind → Bool → ConditionAST
  | emptyCheck : List PathSeg → EmptyOp → ConditionAST
  | hasCheck : List PathSeg → HasOp → JsValue → ConditionAST
  | boolOp : BoolConn → ConditionAST → ConditionAST → ConditionAST
  | notOp : ConditionAST → ConditionAST
  | quantifier : QuantKind → List PathSeg → ConditionAST → ConditionAST

/-- SameValueZero equality used by Array.prototype.includes in the has
evaluator. The literal being searched for comes from the parser and the
elements from the front matter, so containers (compared by reference in
JavaScript) never match. -/
def sameValueZero : JsValue → JsValue → Bool
  | .null, .null => true
  | .bool a, .bool b => a == b
  | .num a, .num b => a == b
  | .str a, .str b => a == b
  | _, _ => false

/-- Embedded from evaluateComparison of src/evaluator/conditionEvaluator.ts:
a missing left path makes not-equal true and every other operator false;
equality and inequality use JavaScript loose equality; relational operators
require both sides to be numbers; the tilde operator defers to evaluateRegex. -/
def evaluateComparison (matcher : RegexMatcher) (left : List PathSeg)
    (op : CmpOp) (right : JsValue) (data : JsValue) : Except String Bool :=
  match resolvePath data left with
  | none => .ok (op == .ne)
  | some leftValue =>
      match op with
      | .eq => .ok (looseEq leftValue right)
      | .ne => .ok (!looseEq leftValue right)
      | .gt =>
          match leftValue, right with
          | .num a, .num b => .ok (b < a)
          | _, _ => .ok false
      | .lt =>
          match leftValue, right with
          | .num a, .num b => .ok (a < b)
          | _, _ => .ok false
      | .ge =>
          match leftValue, right with
          | .num a, .num b => .ok (b ≤ a)
          | _, _ => .ok false
      | .le =>
          match leftValue, right with
          | .num a, .num b => .ok (a ≤ b)
          | _, _ => .ok false
      | .regexMatch =>
          match right with
          | .str pat => evaluateRegex matcher leftValue pat
          | _ => .error "Invalid regex pattern: not a string literal"

/-- Embedded from evaluateExistence of src/evaluator/conditionEvaluator.ts. -/
def evaluateExistence (path : List PathSeg) (op : ExistOp) (data : JsValue) : Bool :=
  let ex := pathExists data path
  if op == .existsOp then ex else !ex

/-- Embedded from evaluateTypeCheck of src/evaluator/conditionEvaluator.ts:
missing paths fail; object excludes arrays and null; number covers every
numeric value. -/
def evaluateTypeCheck (path : List PathSeg) (kind : TypeKind) (negated : Bool)
    (data : JsValue) : Bool :=
  match resolvePath data path with
  | none => false
  | some v =>
      let kindMatches :=
        match kind, v with
        | .stringT, .str _ => true
        | .numberT, .num _ => true
        | .booleanT, .bool _ => true
        | .arrayT, .arr _ => true
        | .objectT, .obj _ => true
        | .nullT, .null => true
        | _, _ => false
      if negated then !kindMatches else kindMatches

/-- Embedded from evaluateEmptyCheck of src/evaluator/conditionEvaluator.ts:
a missing field and an explicit null are both not empty; arrays, strings and
objects are empty exactly when they have length zero; every other value is
not empty. -/
def evaluateEmptyCheck (path : List PathSeg) (op : EmptyOp) (data : JsValue) : Bool :=
  match resolvePath data path with
  | none => op != .empty
  | some .null => op != .empty
  | some v =>
      let isEmpty :=
        match v with
        | .arr xs => xs.length == 0
        | .str s => s.length == 0
        | .obj kvs => kvs.length == 0
        | _ => false
      if op == .empty then isEmpty else !isEmpty

/-- Embedded from evaluateHas of src/evaluator/conditionEvaluator.ts: missing
or non-array paths make has false and not-has true; otherwise membership by
Array.prototype.includes. -/
def evaluateHas (path : List PathSeg) (op : HasOp) (value : JsValue)
    (data : JsValue) : Bool :=
  match resolvePath data path with
  | some (.arr xs) =>
      let hasValue := xs.any (fun x => sameValueZero x value)
      if op == .has then hasValue else !hasValue
  | _ => op != .has

mutual
/-- Embedded from evaluateCondition of src/evaluator/conditionEvaluator.ts.
Errors thrown by the regex evaluator propagate; boolean connectives evaluate
both operands before combining, as the source does. -/
def evaluateCondition (matcher : RegexMatcher) :
    ConditionAST → JsValue → Except String Bool
  | .comparison l op r, data => evaluateComparison matcher l op r data
  | .existence p op, data => .ok (evaluateExistence p op data)
  | .typeCheck p k n, data => .ok (evaluateTypeCheck p k n data)
  | .emptyCheck p op, data => .ok (evaluateEmptyCheck p op data)
  | .hasCheck p op v, data => .ok (evaluateHas p op v data)
  | .boolOp conn l r, data =>
      match evaluateCondition matcher l data with
      | .error e => .error e
      | .ok lv =>
          match evaluateCondition matcher r data with
          | .error e => .error e
          | .ok rv => .ok (if conn == .and then lv && rv else lv || rv)
  | .notOp c, data =>
      match evaluateCondition matcher c data with
      | .error e => .error e
      | .ok b => .ok (!b)
  | .quantifier q arrPath body, data =>
      match resolvePath data arrPath with
      | some (.arr xs) =>
          if xs.length = 0 then .ok false
          else if q == .any then evalSome matcher body xs
          else evalAll matcher body xs
      | _ => .ok false
termination_by ast _ => (sizeOf ast, 0)

/-- Array.prototype.some over evaluateCondition: stop at the first true
element, propagate the first thrown error. -/
def evalSome (matcher : RegexMatcher) (body : ConditionAST) :
    List JsValue → Except String Bool
  | [] => .ok false
  | x :: rest =>
      match evaluateCondition matcher body x with
      | .error e => .error e
      | .ok true => .ok true
      | .ok false => evalSome matcher body rest
termination_by xs => (sizeOf body, sizeOf xs + 1)

/-- Array.prototype.every over evaluateCondition: stop at the first false
element, propagate the first thrown error. -/
def evalAll (matcher : RegexMatcher) (body : ConditionAST) :
    List JsValue → Except String Bool
  | [] => .ok true
  | x :: rest =>
      match evaluateCondition matcher body x with
      | .error e => .error e
      | .ok false => .ok false
      | .ok true => evalAll matcher body rest
termination_by xs => (sizeOf body, sizeOf xs + 1)
end

/-! Literal value parser, embedded from src/parser/valueParser.ts. JSON.parse
is an external library routine; it is passed in as an oracle producing either
a parsed value or a thrown message. -/

/-- Behavior of the external JSON.parse library routine. -/
def JsonParse : Type := String → Except String JsValue

/-- The key deny-list DANGEROUS_OBJECT_KEYS of src/constants.ts. -/
def DANGEROUS_OBJECT_KEYS : List String := ["__proto__", "constructor", "prototype"]

mutual
/-- Embedded from hasDangerousKeys of src/parser/valueParser.ts: first check
the own keys of the current object against the deny-list with the
hasOwnProperty loop of the source, then recurse into every value and element
(arrays own no deny-listed keys, so only their elements are walked). -/
def hasDangerousKeys : JsValue → Bool
  | .obj kvs =>
      DANGEROUS_OBJECT_KEYS.any (fun k => (lookupKey kvs k).isSome) ||
        dangerousValues kvs
  | .arr xs => dangerousElems xs
  | _ => false

/-- Recursion of hasDangerousKeys over the values of an object. -/
def dangerousValues : List (String × JsValue) → Bool
  | [] => false
  | (_, v) :: rest => hasDangerousKeys v || dangerousValues rest

/-- Recursion of hasDangerousKeys over the elements of an array. -/
def dangerousElems : List JsValue → Bool
  | [] => false
  | v :: rest => hasDangerousKeys v || dangerousElems rest
end

/-- The single quote character, written numerically. -/
def singleQuoteChar : Char := Char.ofNat 39

/-- The single quote as a one-character string. -/
def singleQuoteStr : String := String.mk [singleQuoteChar]

/-- The opening brace as a one-character string. -/
def openBraceStr : String := String.mk [openBraceChar]

/-- The closing brace as a one-character string. -/
def closeBraceStr : String := String.mk [closeBraceChar]

/-- Embedded from processEscapeSequences of src/parser/valueParser.ts: the
six global replacements, applied in the same order as the source. -/
def processEscapeSequences (s : String) : String :=
  (((((s.replace "\\\"" "\"").replace ("\\" ++ singleQuoteStr) singleQuoteStr).replace
    "\\\\" "\\").replace "\\n" "\n").replace "\\t" "\t").replace "\\r" "\r"

/-- Embedded from parseString of src/parser/valueParser.ts: strip matching
double or single quotes from the trimmed input and process escapes; inputs
shorter than two characters and unquoted inputs pass through. -/
def parseString (input : String) : String :=
  if input.length < 2 then input
  else
    let trimmed := jsTrim input
    let inner := String.mk ((trimmed.toList.drop 1).dropLast)
    if jsStartsWith trimmed "\"" && jsEndsWith trimmed "\"" then
      processEscapeSequences inner
    else if jsStartsWith trimmed singleQuoteStr && jsEndsWith trimmed singleQuoteStr then
      processEscapeSequences inner
    else trimmed

/-- Shape test for the anchored number pattern of parseNumber: optional minus,
digits, optional dot and digits. -/
def matchesNumberShape (t : String) : Bool :=
  let cs := t.toList
  let rest :=
    match cs with
    | '-' :: r => r
    | r => r
  let ds := rest.takeWhile Char.isDigit
  !ds.isEmpty &&
    (match rest.drop ds.length with
     | [] => true
     | '.' :: fs => !fs.isEmpty && fs.all Char.isDigit
     | _ => false)

/-- Embedded from parseNumber of src/parser/valueParser.ts: trim, test the
anchored decimal pattern, then convert with the JavaScript Number conversion. -/
def parseNumber (input : String) : Option Rat :=
  let trimmed := jsTrim input
  if !matchesNumberShape trimmed then none
  else jsToNumber trimmed

/-- Embedded from parseBoolean of src/parser/valueParser.ts:
case-insensitive true and false, anything else is none. -/
def parseBoolean (input : String) : Option Bool :=
  let t := jsToLower (jsTrim input)
  if t = "true" then some true
  else if t = "false" then some false
  else none

/-- Thrown message of parseArray when the scan finds a deny-listed key. -/
def arrayUnsafeMsg : String :=
  "Array contains unsafe properties (__proto__, constructor, prototype). This could be a security issue."

/-- Thrown message of parseObject when the scan finds a deny-listed key. -/
def objectUnsafeMsg : String :=
  "Object contains unsafe properties (__proto__, constructor, prototype). This could be a security issue."

/-- Embedded from parseArray of src/parser/valueParser.ts: run JSON.parse,
require an array, then reject any value holding a deny-listed key at any
depth; JSON failures and the not-an-array throw are rewrapped, the unsafe
throw is re-raised as is. -/
def parseArray (jp : JsonParse) (input : String) : Except String JsValue :=
  match jp input with
  | .error _ => .error ("Failed to parse array: " ++ input)
  | .ok parsed =>
      match parsed with
      | .arr xs =>
          if hasDangerousKeys (.arr xs) then .error arrayUnsafeMsg
          else .ok (.arr xs)
      | _ => .error ("Failed to parse array: " ++ input)

/-- Embedded from parseObject of src/parser/valueParser.ts: run JSON.parse,
require a plain object, then reject any value holding a deny-listed key at
any depth; JSON failures and the not-an-object throw are rewrapped, the
unsafe throw is re-raised as is. -/
def parseObject (jp : JsonParse) (input : String) : Except String JsValue :=
  match jp input with
  | .error _ => .error ("Failed to parse object: " ++ input)
  | .ok parsed =>
      match parsed with
      | .obj kvs =>
          if hasDangerousKeys (.obj kvs) then .error objectUnsafeMsg
          else .ok (.obj kvs)
      | _ => .error ("Failed to parse object: " ++ input)

/-- Embedded from parseValue of src/parser/valueParser.ts: empty input is the
empty string; then null, boolean, number, array, object and quoted-string
detection in the order of the source. A failed array or object parse is
swallowed by the try-catch of the source and falls through to the remaining
branches, ending at the plain-string default. -/
def parseValue (jp : JsonParse) (input : String) : JsValue :=
  if (jsTrim input).length = 0 then .str ""
  else
    let trimmed := jsTrim input
    if trimmed = "null" || trimmed = "NULL" then .null
    else
      match parseBoolean trimmed with
      | some b => .bool b
      | none =>
      match parseNumber trimmed with
      | some n => .num n
      | none =>
        let arrTry : Option JsValue :=
          if jsStartsWith trimmed "[" && jsEndsWith trimmed "]" then
            (parseArray jp trimmed).toOption
          else none
        match arrTry with
        | some v => v
        | none =>
          let objTry : Option JsValue :=
            if jsStartsWith trimmed openBraceStr && jsEndsWith trimmed closeBraceStr then
              (parseObject jp trimmed).toOption
            else none
          match objTry with
          | some v => v
          | none =>
            if (jsStartsWith trimmed "\"" && jsEndsWith trimmed "\"") ||
               (jsStartsWith trimmed singleQuoteStr && jsEndsWith trimmed singleQuoteStr) then
              .str (parseString trimmed)
            else .str trimmed

/-! Action results and the object actions, embedded from src/types.ts and
src/actions/objectActions.ts. Mutation in place is modeled by returning the
updated value next to the result record. -/

/-- Result record every action executor returns (src/types.ts ActionResult). -/
structure ActionResult where
  success : Bool
  modified : Bool
  changes : List String
  error : Option String := none
  warning : Option String := none

/-- Serialized form of a path, dots for fields and brackets for indices. -/
def pathTail : List PathSeg → String
  | [] => ""
  | .property k :: rest => "." ++ k ++ pathTail rest
  | .index i :: rest => "[" ++ toString i ++ "]" ++ pathTail rest

/-- Serialized form of a whole path. -/
def pathToString : List PathSeg → String
  | .property k :: rest => k ++ pathTail rest
  | p => pathTail p

mutual
/-- Embedded from deepMerge of src/actions/objectActions.ts: walk the source
keys in insertion order; when both sides hold plain objects recurse, otherwise
the source value replaces the target value (arrays are replaced, not merged);
fresh keys are appended. The value ending up under one key is computed by
deepMergeVal. -/
def deepMerge : List (String × JsValue) → List (String × JsValue) → List (String × JsValue)
  | target, [] => target
  | target, (k, sv) :: rest =>
      deepMerge (writeKey target k (deepMergeVal (lookupKey target k) sv)) rest

/-- Value stored for one source key by deepMerge: recurse when the existing
target value and the source value are both plain objects, otherwise the
source value replaces whatever was there. -/
def deepMergeVal : Option JsValue → JsValue → JsValue
  | some (.obj tvs), .obj svs => .obj (deepMerge tvs svs)
  | _, sv => sv
end

/-- Object.assign as used by executeMergeOverwrite: each source key replaces
or appends, in insertion order, without recursion. -/
def objAssign : List (String × JsValue) → List (String × JsValue) → List (String × JsValue)
  | target, [] => target
  | target, (k, v) :: rest => objAssign (writeKey target k v) rest

/-- Embedded from executeMerge of src/actions/objectActions.ts: a missing
path creates the object; a non-object existing value is a hard error with no
change; an existing object is deep-merged in place, and the result always
reports success with modified set to true. The in-place mutation of the
source is modeled by writing the merged object back at the same path. -/
def executeMerge (data : JsValue) (path : List PathSeg)
    (value : List (String × JsValue)) : ActionResult × JsValue :=
  match resolvePath data path with
  | none =>
      ({ success := true, modified := true,
         changes := ["MERGE " ++ pathToString path ++ ": created object with " ++
           toString value.length ++ " field(s)"] },
       setPath data path (.obj value))
  | some (.obj tvs) =>
      let merged := deepMerge tvs value
      ({ success := true, modified := true,
         changes := ["MERGE " ++ pathToString path ++ ": merged " ++
           toString value.length ++ " field(s), added " ++
           toString (merged.length - tvs.length) ++ " new field(s)"] },
       setPath data path (.obj merged))
  | some _ =>
      ({ success := false, modified := false, changes := [],
         error := some ("Field " ++ pathToString path ++ " is not an object") },
       data)

/-- Embedded from executeMergeOverwrite of src/actions/objectActions.ts: like
executeMerge but with a shallow Object.assign, and again every success
reports modified set to true. -/
def executeMergeOverwrite (data : JsValue) (path : List PathSeg)
    (value : List (String × JsValue)) : ActionResult × JsValue :=
  match resolvePath data path with
  | none =>
      ({ success := true, modified := true,
         changes := ["MERGE_OVERWRITE " ++ pathToString path ++ ": created object with " ++
           toString value.length ++ " field(s)"] },
       setPath data path (.obj value))
  | some (.obj tvs) =>
      let merged := objAssign tvs value
      ({ success := true, modified := true,
         changes := ["MERGE_OVERWRITE " ++ pathToString path ++ ": merged " ++
           toString value.length ++ " field(s), added " ++
           toString (merged.length - tvs.length) ++ " new field(s)"] },
       setPath data path (.obj merged))
  | some _ =>
      ({ success := false, modified := false, changes := [],
         error := some ("Field " ++ pathToString path ++ " is not an object") },
       data)

/-! Rule engine, embedded from executeRule of src/core/ruleEngine.ts. The
host-owned pieces are passed in: the condition parser (its source file is not
under src), the template resolver, the action parser and the action executor
dispatch. The file handle, clock and duration bookkeeping are host-owned and
not modeled. -/

/-- Outcome classification of a file run (src/types.ts FileResult status). -/
inductive Status where
  | success | warning | error | skipped
deriving DecidableEq

/-- Per-file result record (src/types.ts FileResult). The original and new
data fields are optional because the catch branch of executeRule builds its
result without them. -/
structure FileResult where
  status : Status
  modified : Bool
  changes : List String
  originalData : Option JsValue := none
  newData : Option JsValue := none
  error : Option String := none
  warning : Option String := none

/-- The slice of a stored rule the engine consumes (src/types.ts Rule). -/
structure Rule where
  condition : String
  action : String

/-- Throwing body of executeRule from src/core/ruleEngine.ts, with the thrown
message as the error case: deep-copy the data for comparison, parse and
evaluate a non-empty condition and return skipped when it is false, resolve
templates, parse the action, execute it on the working value, and classify
the executor result. The JSON round-trip deep copy is the identity on this
value model. -/
def executeRuleCore {α : Type} (pc : String → Except String ConditionAST)
    (matcher : RegexMatcher) (tmpl : String → Except String String)
    (pa : String → Except String α) (exec : α → JsValue → ActionResult × JsValue)
    (rule : Rule) (data : JsValue) : Except String FileResult :=
  let originalData := data
  let condResult : Except String Bool :=
    if 0 < (jsTrim rule.condition).length then
      match pc rule.condition with
      | .error e => .error e
      | .ok condAST => evaluateCondition matcher condAST data
    else .ok true
  match condResult with
  | .error e => .error e
  | .ok matched =>
      if matched = false then
        .ok { status := .skipped, modified := false, changes := [],
              originalData := some originalData, newData := some data }
      else
        match tmpl rule.action with
        | .error e => .error e
        | .ok resolvedAction =>
            match pa resolvedAction with
            | .error e => .error e
            | .ok actionAST =>
                let res := exec actionAST data
                if res.1.success = false then
                  .ok { status := .error, modified := false, changes := res.1.changes,
                        originalData := some originalData, newData := some res.2,
                        error := res.1.error }
                else if res.1.modified = false then
                  .ok { status := if res.1.warning.isSome then .warning else .skipped,
                        modified := false, changes := res.1.changes,
                        originalData := some originalData, newData := some res.2,
                        warning := res.1.warning }
                else
                  .ok { status := if res.1.warning.isSome then .warning else .success,
                        modified := true, changes := res.1.changes,
                        originalData := some originalData, newData := some res.2,
                        warning := res.1.warning }

/-- Embedded from executeRule of src/core/ruleEngine.ts: the body above with
its surrounding try-catch; a thrown message becomes an error result that
carries neither the original nor the new data. -/
def executeRule {α : Type} (pc : String → Except String ConditionAST)
    (matcher : RegexMatcher) (tmpl : String → Except String String)
    (pa : String → Except String α) (exec : α → JsValue → ActionResult × JsValue)
    (rule : Rule) (data : JsValue) : FileResult :=
  match executeRuleCore pc matcher tmpl pa exec rule data with
  | .ok r => r
  | .error e =>
      { status := .error, modified := false, changes := [], error := some e }

/-! Action parser, embedded from src/parser/actionParser.ts for the
MOVE_WHERE production. The action lexer lives outside src, so the token type
is reconstructed from its use sites in the parser and from spec section 4.6;
only the token kinds the MOVE_WHERE path touches are carried. Embedded
conditions are re-parsed by parseCondition of src/parser/conditionParser.ts,
which is also outside src and is therefore passed in as a parameter. -/

/-- Token kinds of the action lexer used by the MOVE_WHERE parser and by the
condition-string reconstruction. -/
inductive ActionTokType where
  | MOVE_WHERE | WHERE | TO | AFTER | BEFORE | START | END
  | IDENTIFIER | NUMBER | STRING | BOOLEAN | NULL | OBJECT | ARRAY
  | DOT | LBRACKET | RBRACKET | COMMA | EOF
  | EQUALS | NOT_EQUALS | GREATER_THAN | LESS_THAN | GREATER_EQUAL
  | LESS_EQUAL | REGEX_MATCH | EXCLAMATION
deriving DecidableEq

/-- Token payload: a string or a number. Numeric token values are modeled as
integers, the only numeric shape the claims exercise. -/
inductive TokVal where
  | s : String → TokVal
  | n : Int → TokVal
deriving DecidableEq

/-- One token of the action lexer. -/
structure ActionToken where
  type : ActionTokType
  value : TokVal
  position : Nat
deriving DecidableEq

/-- String form of a token payload, the JavaScript String(t.value). -/
def tokValStr : TokVal → String
  | .s s => s
  | .n i => toString i

/-- Fallback token the parser sees past the end of the token array. The lexer
always terminates its output with an EOF token, so this default is never
consulted on well-formed input. -/
def eofFallback : ActionToken := ⟨.EOF, .s "", 0⟩

/-- The current token, this.tokens[this.position]. -/
def currentTok (tokens : List ActionToken) (pos : Nat) : ActionToken :=
  tokens.getD pos eofFallback

/-- Advance of the parser cursor: move right unless already on the final
token. -/
def advanceTok (tokens : List ActionToken) (pos : Nat) : Nat :=
  if pos < tokens.length - 1 then pos + 1 else pos

/-- Error text of ActionParserError with a token position. -/
def parserErr (msg : String) (tok : ActionToken) : String :=
  "Action parser error at position " ++ toString tok.position ++ ": " ++ msg

/-- Loop body of parsePath from src/parser/actionParser.ts: extend the path
with dot fields and bracketed numeric indices until neither follows. The fuel
bounds the while loop; on a token list that ends with EOF it never runs out. -/
def parsePathLoop (tokens : List ActionToken) : String → Nat → Nat →
    Except String (String × Nat)
  | _, _, 0 => .error "Action parser error: token stream did not terminate"
  | path, pos, fuel + 1 =>
      let t := currentTok tokens pos
      if t.type = .DOT then
        let pos1 := advanceTok tokens pos
        let nt := currentTok tokens pos1
        if nt.type = .IDENTIFIER then
          parsePathLoop tokens (path ++ "." ++ tokValStr nt.value) (advanceTok tokens pos1) fuel
        else .error (parserErr "Expected identifier after dot" nt)
      else if t.type = .LBRACKET then
        let pos1 := advanceTok tokens pos
        let it := currentTok tokens pos1
        if it.type = .NUMBER then
          let pos2 := advanceTok tokens pos1
          let rb := currentTok tokens pos2
          if rb.type = .RBRACKET then
            parsePathLoop tokens (path ++ "[" ++ tokValStr it.value ++ "]")
              (advanceTok tokens pos2) fuel
          else .error (parserErr "Expected closing bracket" rb)
        else .error (parserErr "Expected number in array index" it)
      else .ok (path, pos)

/-- Embedded from parsePath of src/parser/actionParser.ts: an identifier head
followed by the dot-and-bracket loop; the serialized path string and the new
cursor are returned. -/
def parsePathTok (tokens : List ActionToken) (pos : Nat) :
    Except String (String × Nat) :=
  let t := currentTok tokens pos
  if t.type = .IDENTIFIER then
    parsePathLoop tokens (tokValStr t.value) (advanceTok tokens pos) (tokens.length + 1)
  else .error (parserErr "Expected identifier for path" t)

/-- Token collection loop of parseMoveWhere: gather tokens until one of the
stop kinds or EOF. The fuel bounds the while loop; it never runs out on a
token list that ends with EOF. -/
def collectUntil (stops : List ActionTokType) (tokens : List ActionToken) :
    Nat → Nat → List ActionToken × Nat
  | pos, 0 => ([], pos)
  | pos, fuel + 1 =>
      let t := currentTok tokens pos
      if stops.contains t.type || t.type = .EOF then ([], pos)
      else
        let pos1 := advanceTok tokens pos
        if pos1 = pos then ([t], pos)
        else
          let r := collectUntil stops tokens pos1 fuel
          (t :: r.1, r.2)

/-- Embedded from reconstructConditionString of src/parser/actionParser.ts:
strings regain their double quotes, operator tokens map back to their
symbols, every other token prints its value; pieces are joined with spaces. -/
def reconstructTok (t : ActionToken) : String :=
  match t.type with
  | .STRING => "\"" ++ tokValStr t.value ++ "\""
  | .EQUALS => "="
  | .NOT_EQUALS => "!="
  | .GREATER_THAN => ">"
  | .LESS_THAN => "<"
  | .GREATER_EQUAL => ">="
  | .LESS_EQUAL => "<="
  | .REGEX_MATCH => "~"
  | .EXCLAMATION => "!"
  | _ => tokValStr t.value

/-- Join of the reconstructed token texts with single spaces. -/
def reconstructConditionString (toks : List ActionToken) : String :=
  String.intercalate " " (toks.map reconstructTok)

/-- Relative placement keyword of a MOVE_WHERE target. -/
inductive AfterBefore where
  | after | before
deriving DecidableEq

/-- Target of a MOVE_WHERE action. The numeric constructor mirrors the index
form the action syntax of spec section 4.6 allows; the theorems below show
the parser never produces it. -/
inductive MoveTarget where
  | start : MoveTarget
  | endT : MoveTarget
  | numeric : Int → MoveTarget
  | relative : AfterBefore → ConditionAST → MoveTarget

/-- Parsed MOVE_WHERE action (src/types.ts MoveWhereAction); the path stays
in its serialized string form, as in the source. -/
structure MoveWhereAction where
  path : String
  condition : ConditionAST
  target : MoveTarget

/-- Target portion of parseMoveWhere from src/parser/actionParser.ts: TO
followed by START, END or a number, where a numeric index is collapsed to
START when it equals zero and to END otherwise; or AFTER or BEFORE followed
by a reference condition built from the remaining tokens. -/
def parseMoveTarget (pc : String → Except String ConditionAST)
    (tokens : List ActionToken) (pos : Nat) (path : String)
    (cond : ConditionAST) : Except String MoveWhereAction :=
  let tt := currentTok tokens pos
  if tt.type = .TO then
    let pos1 := advanceTok tokens pos
    let nt := currentTok tokens pos1
    if nt.type = .START then .ok ⟨path, cond, .start⟩
    else if nt.type = .END then .ok ⟨path, cond, .endT⟩
    else if nt.type = .NUMBER then
      .ok ⟨path, cond, if nt.value = .n 0 then .start else .endT⟩
    else .error (parserErr "Expected START, END, or number after TO" nt)
  else if tt.type = .AFTER || tt.type = .BEFORE then
    let position := if tt.type = .AFTER then AfterBefore.after else .before
    let pos1 := advanceTok tokens pos
    let collected := collectUntil [] tokens pos1 (tokens.length + 1)
    match pc (reconstructConditionString collected.1) with
    | .error e => .error e
    | .ok reference => .ok ⟨path, cond, .relative position reference⟩
  else .error (parserErr "Expected TO, AFTER, or BEFORE after WHERE condition" tt)

/-- Embedded from parseMoveWhere of src/parser/actionParser.ts: consume the
MOVE_WHERE keyword, parse the path, expect WHERE, collect the condition
tokens up to TO, AFTER or BEFORE, re-parse them through the condition parser,
then parse the target. -/
def parseMoveWhere (pc : String → Except String ConditionAST)
    (tokens : List ActionToken) : Except String MoveWhereAction :=
  let pos0 := advanceTok tokens 0
  match parsePathTok tokens pos0 with
  | .error e => .error e
  | .ok (path, pos1) =>
      let wt := currentTok tokens pos1
      if wt.type = .WHERE then
        let pos2 := advanceTok tokens pos1
        let collected := collectUntil [.TO, .AFTER, .BEFORE] tokens pos2 (tokens.length + 1)
        match pc (reconstructConditionString collected.1) with
        | .error e => .error e
        | .ok cond => parseMoveTarget pc tokens collected.2 path cond
      else .error (parserErr "Expected WHERE keyword" wt)

/-! Theorems. Each claim of the specification is settled by one theorem; a
corrected claim additionally carries a closed counterexample. -/

/-- Spec-side classifier for the empty-check table of spec section 4.5: an
empty sequence, an empty string or an empty map. -/
def isEmptyValue : JsValue → Bool
  | .arr xs => xs.isEmpty
  | .str s => s.length == 0
  | .obj kvs => kvs.isEmpty
  | _ => false

/-- C2 counterexample: the claim says a string value never compares equal to
a number literal and names the string 1984 against the number 1984 as the
example. The embedded comparison evaluator uses JavaScript loose equality, so
that very comparison evaluates to true: on front matter where the field year
holds the string 1984, the condition year = 1984 is true. -/
theorem c2_counterexample :
    evaluateCondition (fun _ _ _ => Except.ok false)
      (ConditionAST.comparison [PathSeg.property "year"] CmpOp.eq (JsValue.num 1984))
      (JsValue.obj [("year", JsValue.str "1984")]) = Except.ok true := by
  simp only [evaluateCondition]
  simp only [evaluateComparison, resolvePath, lookupKey]
  norm_num [looseEq, looseEqPrim, optNumEq]
  decide

/-- C2 amended: equality in the comparison evaluator is JavaScript loose
equality, so a string on the left compares equal to a number literal exactly
when the JavaScript numeric conversion of the string yields that number; the
string 1984 therefore equals the number 1984. -/
theorem c2_amended (matcher : RegexMatcher) (data : JsValue) (p : List PathSeg)
    (s : String) (n : Rat) (h : resolvePath data p = some (.str s)) :
    evaluateCondition matcher (ConditionAST.comparison p CmpOp.eq (JsValue.num n)) data =
      Except.ok (optNumEq (jsToNumber s) (some n)) := by
  simp only [evaluateCondition, evaluateComparison, h, looseEq, looseEqPrim]

/-- C2 amended witness at the concrete input of the counterexample. -/
theorem c2_amended_witness :
    resolvePath (JsValue.obj [("year", JsValue.str "1984")]) [PathSeg.property "year"] =
      some (JsValue.str "1984") ∧
    evaluateCondition (fun _ _ _ => Except.ok false)
      (ConditionAST.comparison [PathSeg.property "year"] CmpOp.eq (JsValue.num 1984))
      (JsValue.obj [("year", JsValue.str "1984")]) =
      Except.ok (optNumEq (jsToNumber "1984") (some 1984)) :=
  ⟨by rfl,
   c2_amended (fun _ _ _ => Except.ok false) (JsValue.obj [("year", JsValue.str "1984")])
     [PathSeg.property "year"] "1984" 1984 (by rfl)⟩

/-- C5: the empty-check evaluator satisfies the truth table of spec section
4.5 exhaustively: a missing path and an explicit null are not empty; an empty
sequence, string or map is empty; every other present value is not empty; the
negated operator is the complement in every row. -/
theorem c5_empty_check_table (matcher : RegexMatcher) (data : JsValue)
    (p : List PathSeg) :
    (resolvePath data p = none →
      evaluateCondition matcher (ConditionAST.emptyCheck p EmptyOp.empty) data = .ok false ∧
      evaluateCondition matcher (ConditionAST.emptyCheck p EmptyOp.notEmpty) data = .ok true) ∧
    (resolvePath data p = some .null →
      evaluateCondition matcher (ConditionAST.emptyCheck p EmptyOp.empty) data = .ok false ∧
      evaluateCondition matcher (ConditionAST.emptyCheck p EmptyOp.notEmpty) data = .ok true) ∧
    (∀ v, resolvePath data p = some v → isEmptyValue v = true →
      evaluateCondition matcher (ConditionAST.emptyCheck p EmptyOp.empty) data = .ok true ∧
      evaluateCondition matcher (ConditionAST.emptyCheck p EmptyOp.notEmpty) data = .ok false) ∧
    (∀ v, resolvePath data p = some v → v ≠ .null → isEmptyValue v = false →
      evaluateCondition matcher (ConditionAST.emptyCheck p EmptyOp.empty) data = .ok false ∧
      evaluateCondition matcher (ConditionAST.emptyCheck p EmptyOp.notEmpty) data = .ok true) := by
  refine ⟨fun h => ?_, fun h => ?_, fun v h hv => ?_, fun v h hnull hv => ?_⟩
  · simp [evaluateCondition, evaluateEmptyCheck, h]
  · simp [evaluateCondition, evaluateEmptyCheck, h]
  · cases v <;> simp_all [evaluateCondition, evaluateEmptyCheck, isEmptyValue,
      List.isEmpty_iff]
  · cases v <;> simp_all [evaluateCondition, evaluateEmptyCheck, isEmptyValue,
      List.isEmpty_iff]

/-- C5 witness: the four rows of the table at concrete inputs, missing path,
explicit null, empty array, and a non-empty string. -/
theorem c5_empty_check_table_witness :
    (evaluateCondition (fun _ _ _ => Except.ok false)
      (ConditionAST.emptyCheck [PathSeg.property "missing"] EmptyOp.empty)
      (JsValue.obj [("tags", JsValue.arr [])]) = .ok false) ∧
    (evaluateCondition (fun _ _ _ => Except.ok false)
      (ConditionAST.emptyCheck [PathSeg.property "note"] EmptyOp.notEmpty)
      (JsValue.obj [("note", JsValue.null)]) = .ok true) ∧
    (evaluateCondition (fun _ _ _ => Except.ok false)
      (ConditionAST.emptyCheck [PathSeg.property "tags"] EmptyOp.empty)
      (JsValue.obj [("tags", JsValue.arr [])]) = .ok true) ∧
    (evaluateCondition (fun _ _ _ => Except.ok false)
      (ConditionAST.emptyCheck [PathSeg.property "title"] EmptyOp.empty)
      (JsValue.obj [("title", JsValue.str "x")]) = .ok false) :=
  ⟨((c5_empty_check_table (fun _ _ _ => Except.ok false)
      (JsValue.obj [("tags", JsValue.arr [])]) [PathSeg.property "missing"]).1 (by rfl)).1,
   ((c5_empty_check_table (fun _ _ _ => Except.ok false)
      (JsValue.obj [("note", JsValue.null)]) [PathSeg.property "note"]).2.1 (by rfl)).2,
   ((c5_empty_check_table (fun _ _ _ => Except.ok false)
      (JsValue.obj [("tags", JsValue.arr [])]) [PathSeg.property "tags"]).2.2.1
      (JsValue.arr []) (by rfl) (by rfl)).1,
   ((c5_empty_check_table (fun _ _ _ => Except.ok false)
      (JsValue.obj [("title", JsValue.str "x")]) [PathSeg.property "title"]).2.2.2
      (JsValue.str "x") (by rfl) (by simp) (by rfl)).1⟩

/-- C9 counterexample: merging an object whose single key is already present
with the identical value succeeds and leaves the data unchanged, yet the
result reports modified as true, against the claim that a successful action
with no structural change reports modified as false. -/
theorem c9_counterexample :
    (executeMerge (JsValue.obj [("a", JsValue.obj [("k", JsValue.num 1)])])
      [PathSeg.property "a"] [("k", JsValue.num 1)]).1.success = true ∧
    (executeMerge (JsValue.obj [("a", JsValue.obj [("k", JsValue.num 1)])])
      [PathSeg.property "a"] [("k", JsValue.num 1)]).1.modified = true ∧
    (executeMerge (JsValue.obj [("a", JsValue.obj [("k", JsValue.num 1)])])
      [PathSeg.property "a"] [("k", JsValue.num 1)]).2 =
      JsValue.obj [("a", JsValue.obj [("k", JsValue.num 1)])] :=
  ⟨by rfl, by rfl, by rfl⟩

/-- C9 amended: every successful MERGE and MERGE_OVERWRITE reports modified
as true, whether it created the object or merged into an existing one, and
even when the merge causes no structural change; a successful merge never
reports modified as false. -/
theorem c9_amended (data : JsValue) (path : List PathSeg)
    (value : List (String × JsValue)) :
    ((executeMerge data path value).1.success = true →
      (executeMerge data path value).1.modified = true) ∧
    ((executeMergeOverwrite data path value).1.success = true →
      (executeMergeOverwrite data path value).1.modified = true) := by
  constructor
  · intro h
    unfold executeMerge at *
    cases hres : resolvePath data path with
    | none => simp [hres]
    | some v => cases v <;> simp_all [hres]
  · intro h
    unfold executeMergeOverwrite at *
    cases hres : resolvePath data path with
    | none => simp [hres]
    | some v => cases v <;> simp_all [hres]

/-- C9 amended witness at the no-change merge of the counterexample. -/
theorem c9_amended_witness :
    (executeMerge (JsValue.obj [("a", JsValue.obj [("k", JsValue.num 1)])])
      [PathSeg.property "a"] [("k", JsValue.num 1)]).1.modified = true ∧
    (executeMergeOverwrite (JsValue.obj [("a", JsValue.obj [("k", JsValue.num 1)])])
      [PathSeg.property "a"] [("k", JsValue.num 1)]).1.modified = true :=
  ⟨(c9_amended (JsValue.obj [("a", JsValue.obj [("k", JsValue.num 1)])])
      [PathSeg.property "a"] [("k", JsValue.num 1)]).1 (by rfl),
   (c9_amended (JsValue.obj [("a", JsValue.obj [("k", JsValue.num 1)])])
      [PathSeg.property "a"] [("k", JsValue.num 1)]).2 (by rfl)⟩

/-- C4: a regex comparison whose pattern is longer than MAX_REGEX_LENGTH or
matches one of the deny-listed shapes (nested quantifiers, open-ended
repetition, repeated dot-star pairs, repeated quantifier characters) is
rejected with an error, and the host regex engine is never consulted: the
outcome is the same for every matcher. -/
theorem c4_regex_guard (matcher : RegexMatcher) (v : JsValue) (pattern : String)
    (parts : RegexParts) (hsplit : splitRegexLit pattern = some parts)
    (hbad : MAX_REGEX_LENGTH < parts.pattern.length ∨
      DANGEROUS_REGEX_PATTERNS.any (fun t => t parts.pattern) = true) :
    (∃ m, evaluateRegex matcher v pattern = .error m) ∧
    (∀ m2 : RegexMatcher, evaluateRegex m2 v pattern = evaluateRegex matcher v pattern) := by
  by_cases hlen : parts.pattern.length > MAX_REGEX_LENGTH
  · constructor
    · exact ⟨"Regex pattern too long (max " ++ toString MAX_REGEX_LENGTH ++
        " characters): " ++ parts.pattern, by simp [evaluateRegex, hsplit, hlen]⟩
    · intro m2
      simp [evaluateRegex, hsplit, hlen]
  · have hdang : DANGEROUS_REGEX_PATTERNS.any (fun t => t parts.pattern) = true := by
      rcases hbad with h | h
      · exact absurd h hlen
      · exact h
    constructor
    · exact ⟨"Potentially unsafe regex pattern detected (could cause performance issues): "
        ++ parts.pattern, by simp [evaluateRegex, hsplit, hlen, hdang]⟩
    · intro m2
      simp [evaluateRegex, hsplit, hlen, hdang]

/-- C4 witness: the pattern with a repeated plus quantifier is rejected with
an error regardless of the matcher behavior. -/
theorem c4_regex_guard_witness :
    (∃ m, evaluateRegex (fun _ _ _ => Except.ok true) (JsValue.str "aab") "/a++b/" =
      .error m) ∧
    (∀ m2 : RegexMatcher,
      evaluateRegex m2 (JsValue.str "aab") "/a++b/" =
        evaluateRegex (fun _ _ _ => Except.ok true) (JsValue.str "aab") "/a++b/") :=
  c4_regex_guard (fun _ _ _ => Except.ok true) (JsValue.str "aab") "/a++b/"
    ⟨"a++b", ""⟩ (by rfl) (Or.inr (by decide))

/-- Spec-side formulation of prototype safety: the value owns a key from the
deny list at some depth, reachable through object values or array elements. -/
inductive HasDangerousKeyDeep : JsValue → Prop where
  | here : ∀ kvs k v, (k, v) ∈ kvs → k ∈ DANGEROUS_OBJECT_KEYS →
      HasDangerousKeyDeep (.obj kvs)
  | inObj : ∀ kvs k v, (k, v) ∈ kvs → HasDangerousKeyDeep v →
      HasDangerousKeyDeep (.obj kvs)
  | inArr : ∀ xs v, v ∈ xs → HasDangerousKeyDeep v →
      HasDangerousKeyDeep (.arr xs)

/-- A key present in the entry list is found by lookupKey. -/
theorem lookupKey_isSome_of_mem {kvs : List (String × JsValue)} {k : String}
    {v : JsValue} (hm : (k, v) ∈ kvs) : (lookupKey kvs k).isSome = true := by
  induction kvs with
  | nil => cases hm
  | cons hd tl ih =>
      obtain ⟨k2, v2⟩ := hd
      rcases List.mem_cons.mp hm with h | h
      · cases h
        simp [lookupKey]
      · by_cases hk : k2 = k
        · simp [lookupKey, hk]
        · simpa [lookupKey, hk] using ih h

/-- A dangerous value stored under some key makes the value walk true. -/
theorem dangerousValues_of_mem {kvs : List (String × JsValue)} {k : String}
    {v : JsValue} (hm : (k, v) ∈ kvs) (hv : hasDangerousKeys v = true) :
    dangerousValues kvs = true := by
  induction kvs with
  | nil => cases hm
  | cons hd tl ih =>
      obtain ⟨k2, v2⟩ := hd
      rcases List.mem_cons.mp hm with h | h
      · cases h
        simp [dangerousValues, hv]
      · simp [dangerousValues, ih h]

/-- A dangerous element makes the element walk true. -/
theorem dangerousElems_of_mem {xs : List JsValue} {v : JsValue} (hm : v ∈ xs)
    (hv : hasDangerousKeys v = true) : dangerousElems xs = true := by
  induction xs with
  | nil => cases hm
  | cons hd tl ih =>
      rcases List.mem_cons.mp hm with h | h
      · cases h
        simp [dangerousElems, hv]
      · simp [dangerousElems, ih h]

/-- The scan of the source finds every deep dangerous key the spec describes. -/
theorem hasDangerousKeys_of_deep {v : JsValue} (h : HasDangerousKeyDeep v) :
    hasDangerousKeys v = true := by
  induction h with
  | here kvs k v hm hk =>
      simp only [hasDangerousKeys, Bool.or_eq_true]
      exact Or.inl (List.any_eq_true.mpr ⟨k, hk, lookupKey_isSome_of_mem hm⟩)
  | inObj kvs k v hm hd ih =>
      simp only [hasDangerousKeys, Bool.or_eq_true]
      exact Or.inr (dangerousValues_of_mem hm ih)
  | inArr xs v hm hd ih =>
      simpa only [hasDangerousKeys] using dangerousElems_of_mem hm ih

/-- C3: any literal JSON array or object owning a key equal to one of
__proto__, constructor or prototype at any depth is rejected by the literal
value parser with the unsafe-properties error, and the dangerous value is
never returned to the caller: the parse result is the error, not the value. -/
theorem c3_prototype_pollution_guard (jp : JsonParse) (input : String)
    (v : JsValue) (hjp : jp input = .ok v) (hd : HasDangerousKeyDeep v) :
    (∀ kvs, v = .obj kvs →
      parseObject jp input = .error objectUnsafeMsg ∧
      strHasSub objectUnsafeMsg "unsafe properties" = true) ∧
    (∀ xs, v = .arr xs →
      parseArray jp input = .error arrayUnsafeMsg ∧
      strHasSub arrayUnsafeMsg "unsafe properties" = true) := by
  have hkeys := hasDangerousKeys_of_deep hd
  constructor
  · rintro kvs rfl
    exact ⟨by simp [parseObject, hjp, hkeys], by decide⟩
  · rintro xs rfl
    exact ⟨by simp [parseArray, hjp, hkeys], by decide⟩

/-- C3 witness: a JSON object carrying a proto key at depth one and a JSON
array carrying one inside an element are both rejected. -/
theorem c3_prototype_pollution_guard_witness :
    (parseObject (fun _ => Except.ok (JsValue.obj [("safe", JsValue.num 2),
        ("__proto__", JsValue.num 1)])) "input" = .error objectUnsafeMsg ∧
      strHasSub objectUnsafeMsg "unsafe properties" = true) ∧
    (parseArray (fun _ => Except.ok (JsValue.arr
        [JsValue.obj [("prototype", JsValue.null)]])) "input" = .error arrayUnsafeMsg ∧
      strHasSub arrayUnsafeMsg "unsafe properties" = true) :=
  ⟨(c3_prototype_pollution_guard
      (fun _ => Except.ok (JsValue.obj [("safe", JsValue.num 2), ("__proto__", JsValue.num 1)]))
      "input" (JsValue.obj [("safe", JsValue.num 2), ("__proto__", JsValue.num 1)]) rfl
      (HasDangerousKeyDeep.here _ "__proto__" (JsValue.num 1) (by simp)
        (by simp [DANGEROUS_OBJECT_KEYS]))).1 _ rfl,
   (c3_prototype_pollution_guard
      (fun _ => Except.ok (JsValue.arr [JsValue.obj [("prototype", JsValue.null)]]))
      "input" (JsValue.arr [JsValue.obj [("prototype", JsValue.null)]]) rfl
      (HasDangerousKeyDeep.inArr _ (JsValue.obj [("prototype", JsValue.null)]) (by simp)
        (HasDangerousKeyDeep.here _ "prototype" JsValue.null (by simp)
          (by simp [DANGEROUS_OBJECT_KEYS])))).2 _ rfl⟩

/-- C10: parseValue is total by construction in this embedding (it returns a
plain value, never an error), and its swallowed failure paths behave as the
claim says: all-blank input yields the empty string, and input that starts
and ends with the JSON array or object delimiters but whose array or object
parse throws (including the unsafe-properties rejection) falls back to the
trimmed input as a plain string; the hypotheses spell out the branch guards
such an input satisfies. -/
theorem c10_parse_value_fallback (jp : JsonParse) (s : String) :
    ((jsTrim s).length = 0 → parseValue jp s = .str "") ∧
    (∀ e, (jsTrim s).length ≠ 0 →
      jsTrim s ≠ "null" → jsTrim s ≠ "NULL" →
      parseBoolean (jsTrim s) = none → parseNumber (jsTrim s) = none →
      jsStartsWith (jsTrim s) "[" = true → jsEndsWith (jsTrim s) "]" = true →
      parseArray jp (jsTrim s) = .error e →
      jsStartsWith (jsTrim s) openBraceStr = false →
      jsStartsWith (jsTrim s) "\"" = false →
      jsStartsWith (jsTrim s) singleQuoteStr = false →
      parseValue jp s = .str (jsTrim s)) ∧
    (∀ e, (jsTrim s).length ≠ 0 →
      jsTrim s ≠ "null" → jsTrim s ≠ "NULL" →
      parseBoolean (jsTrim s) = none → parseNumber (jsTrim s) = none →
      jsStartsWith (jsTrim s) "[" = false →
      jsStartsWith (jsTrim s) openBraceStr = true →
      jsEndsWith (jsTrim s) closeBraceStr = true →
      parseObject jp (jsTrim s) = .error e →
      jsStartsWith (jsTrim s) "\"" = false →
      jsStartsWith (jsTrim s) singleQuoteStr = false →
      parseValue jp s = .str (jsTrim s)) := by
  refine ⟨fun h0 => ?_, fun e h0 hn hN hb hnum hsb heb harr hob hq hsq => ?_,
    fun e h0 hn hN hb hnum hsb hob heb hobjerr hq hsq => ?_⟩
  · simp [parseValue, h0]
  · simp [parseValue, h0, hn, hN, hb, hnum, hsb, heb, harr, hob, hq, hsq,
      Except.toOption]
  · simp [parseValue, h0, hn, hN, hb, hnum, hsb, hob, heb, hobjerr, hq, hsq,
      Except.toOption]

/-- C10 witness: blank input, an array-shaped input on which JSON.parse
throws, and an object-shaped input rejected for a proto key all come back as
plain strings. -/
theorem c10_parse_value_fallback_witness :
    parseValue (fun _ => Except.error "SyntaxError") "   " = .str "" ∧
    parseValue (fun _ => Except.error "SyntaxError") "[oops]" = .str (jsTrim "[oops]") ∧
    parseValue (fun _ => Except.ok (JsValue.obj [("__proto__", JsValue.num 1)]))
      "\x7b\"__proto__\": 1\x7d" = .str (jsTrim "\x7b\"__proto__\": 1\x7d") :=
  ⟨(c10_parse_value_fallback (fun _ => Except.error "SyntaxError") "   ").1 (by rfl),
   (c10_parse_value_fallback (fun _ => Except.error "SyntaxError") "[oops]").2.1
     "Failed to parse array: [oops]" (by decide) (by decide) (by decide) (by rfl)
     (by rfl) (by rfl) (by rfl) (by rfl) (by rfl) (by rfl) (by rfl),
   (c10_parse_value_fallback (fun _ => Except.ok (JsValue.obj [("__proto__", JsValue.num 1)]))
     "\x7b\"__proto__\": 1\x7d").2.2
     objectUnsafeMsg (by decide) (by decide) (by decide) (by rfl)
     (by rfl) (by rfl) (by rfl) (by rfl) (by rfl) (by rfl) (by rfl)⟩

/-- When the body evaluates without error on every element, the some-walk
returns ok true exactly when some element satisfies the body. -/
theorem evalSome_ok_true_iff (matcher : RegexMatcher) (body : ConditionAST)
    (xs : List JsValue)
    (h : ∀ x ∈ xs, ∃ b, evaluateCondition matcher body x = .ok b) :
    evalSome matcher body xs = .ok true ↔
      ∃ x ∈ xs, evaluateCondition matcher body x = .ok true := by
  induction xs with
  | nil => simp [evalSome]
  | cons x rest ih =>
      obtain ⟨b, hb⟩ := h x (List.mem_cons_self x rest)
      have ihr := ih (fun y hy => h y (List.mem_cons_of_mem x hy))
      cases b with
      | true => simp [evalSome, hb]
      | false =>
          rw [show evalSome matcher body (x :: rest) = evalSome matcher body rest by
            simp [evalSome, hb]]
          rw [ihr]
          constructor
          · rintro ⟨y, hy, hyt⟩
            exact ⟨y, List.mem_cons_of_mem x hy, hyt⟩
          · rintro ⟨y, hy, hyt⟩
            rcases List.mem_cons.mp hy with rfl | hy2
            · rw [hb] at hyt
              cases hyt
            · exact ⟨y, hy2, hyt⟩

/-- When the body evaluates without error on every element, the every-walk
returns ok true exactly when every element satisfies the body. -/
theorem evalAll_ok_true_iff (matcher : RegexMatcher) (body : ConditionAST)
    (xs : List JsValue)
    (h : ∀ x ∈ xs, ∃ b, evaluateCondition matcher body x = .ok b) :
    evalAll matcher body xs = .ok true ↔
      ∀ x ∈ xs, evaluateCondition matcher body x = .ok true := by
  induction xs with
  | nil => simp [evalAll]
  | cons x rest ih =>
      obtain ⟨b, hb⟩ := h x (List.mem_cons_self x rest)
      have ihr := ih (fun y hy => h y (List.mem_cons_of_mem x hy))
      cases b with
      | false =>
          rw [show evalAll matcher body (x :: rest) = .ok false by simp [evalAll, hb]]
          constructor
          · intro hcontra
            cases hcontra
          · intro hall
            have := hall x (List.mem_cons_self x rest)
            rw [hb] at this
            cases this
      | true =>
          rw [show evalAll matcher body (x :: rest) = evalAll matcher body rest by
            simp [evalAll, hb]]
          rw [ihr]
          constructor
          · intro hall y hy
            rcases List.mem_cons.mp hy with rfl | hy2
            · exact hb
            · exact hall y hy2
          · intro hall y hy
            exact hall y (List.mem_cons_of_mem x hy)

/-- C8: for a quantifier condition, a path that does not resolve to a
sequence, or resolves to an empty one, makes both ANY and ALL false (ALL over
an empty array is false, not vacuously true); over a non-empty sequence whose
elements evaluate without error, ANY holds exactly when some element
satisfies the body and ALL exactly when every element does, the body being
evaluated against the element itself; the body is an arbitrary condition, so
quantifiers nest. -/
theorem c8_quantifier_semantics (matcher : RegexMatcher) (data : JsValue)
    (p : List PathSeg) (body : ConditionAST) :
    ((∀ xs, resolvePath data p ≠ some (.arr xs)) →
      ∀ q, evaluateCondition matcher (ConditionAST.quantifier q p body) data = .ok false) ∧
    (resolvePath data p = some (.arr []) →
      ∀ q, evaluateCondition matcher (ConditionAST.quantifier q p body) data = .ok false) ∧
    (∀ xs, resolvePath data p = some (.arr xs) → xs ≠ [] →
      (∀ x ∈ xs, ∃ b, evaluateCondition matcher body x = .ok b) →
      (evaluateCondition matcher (ConditionAST.quantifier QuantKind.any p body) data =
          .ok true ↔ ∃ x ∈ xs, evaluateCondition matcher body x = .ok true) ∧
      (evaluateCondition matcher (ConditionAST.quantifier QuantKind.all p body) data =
          .ok true ↔ ∀ x ∈ xs, evaluateCondition matcher body x = .ok true)) := by
  refine ⟨fun h q => ?_, fun h q => ?_, fun xs h hne hok => ?_⟩
  · rw [show evaluateCondition matcher (ConditionAST.quantifier q p body) data =
        (match resolvePath data p with
         | some (.arr xs) =>
             if xs.length = 0 then .ok false
             else if q == .any then evalSome matcher body xs
             else evalAll matcher body xs
         | _ => .ok false) from by simp [evaluateCondition]]
    cases hres : resolvePath data p with
    | none => rfl
    | some v =>
        cases v with
        | arr xs => exact absurd hres (h xs)
        | null => rfl
        | bool b => rfl
        | num n => rfl
        | str s => rfl
        | obj kvs => rfl
  · simp [evaluateCondition, h]
  · have hlen : xs.length ≠ 0 := fun hc => hne (List.length_eq_zero.mp hc)
    constructor
    · rw [show evaluateCondition matcher
          (ConditionAST.quantifier QuantKind.any p body) data =
          evalSome matcher body xs from by simp [evaluateCondition, h, hlen]]
      exact evalSome_ok_true_iff matcher body xs hok
    · rw [show evaluateCondition matcher
          (ConditionAST.quantifier QuantKind.all p body) data =
          evalAll matcher body xs from by simp [evaluateCondition, h, hlen]]
      exact evalAll_ok_true_iff matcher body xs hok

/-- C8 witness: projects is not an array in the first data set, so ANY is
false; and the nested quantifier of spec scenario 8 is true: some project has
some task with status pending. The nested body is itself a quantifier, so
quantifiers nest. -/
theorem c8_quantifier_semantics_witness :
    evaluateCondition (fun _ _ _ => Except.ok false)
      (ConditionAST.quantifier QuantKind.any [PathSeg.property "projects"]
        (ConditionAST.emptyCheck [] EmptyOp.empty))
      (JsValue.obj [("projects", JsValue.str "not an array")]) = .ok false ∧
    (evaluateCondition (fun _ _ _ => Except.ok false)
      (ConditionAST.quantifier QuantKind.any [PathSeg.property "projects"]
        (ConditionAST.quantifier QuantKind.any [PathSeg.property "tasks"]
          (ConditionAST.comparison [PathSeg.property "status"] CmpOp.eq
            (JsValue.str "pending"))))
      (JsValue.obj [("projects", JsValue.arr
        [JsValue.obj [("tasks", JsValue.arr [JsValue.obj [("status", JsValue.str "done")]])],
         JsValue.obj [("tasks", JsValue.arr [JsValue.obj [("status", JsValue.str "pending")]])]])])
      = .ok true) := by
  constructor
  · exact (c8_quantifier_semantics (fun _ _ _ => Except.ok false)
      (JsValue.obj [("projects", JsValue.str "not an array")])
      [PathSeg.property "projects"] (ConditionAST.emptyCheck [] EmptyOp.empty)).1
      (by intro xs hc; simp [resolvePath, lookupKey] at hc) QuantKind.any
  · have h := ((c8_quantifier_semantics (fun _ _ _ => Except.ok false)
      (JsValue.obj [("projects", JsValue.arr
        [JsValue.obj [("tasks", JsValue.arr [JsValue.obj [("status", JsValue.str "done")]])],
         JsValue.obj [("tasks", JsValue.arr [JsValue.obj [("status", JsValue.str "pending")]])]])])
      [PathSeg.property "projects"]
      (ConditionAST.quantifier QuantKind.any [PathSeg.property "tasks"]
        (ConditionAST.comparison [PathSeg.property "status"] CmpOp.eq
          (JsValue.str "pending")))).2.2
      [JsValue.obj [("tasks", JsValue.arr [JsValue.obj [("status", JsValue.str "done")]])],
       JsValue.obj [("tasks", JsValue.arr [JsValue.obj [("status", JsValue.str "pending")]])]]
      (by rfl) (by simp)
      (by
        intro x hx
        rcases List.mem_cons.mp hx with rfl | hx2
        · exact ⟨false, by
            simp [evaluateCondition, resolvePath, lookupKey, evalSome,
              evaluateComparison, looseEq, looseEqPrim]⟩
        · rcases List.mem_cons.mp hx2 with rfl | hx3
          · exact ⟨true, by
              simp [evaluateCondition, resolvePath, lookupKey, evalSome,
                evaluateComparison, looseEq, looseEqPrim]⟩
          · cases hx3)).1
    rw [h]
    refine ⟨JsValue.obj [("tasks", JsValue.arr
      [JsValue.obj [("status", JsValue.str "pending")]])], by simp, ?_⟩
    simp [evaluateCondition, resolvePath, lookupKey, evalSome,
      evaluateComparison, looseEq, looseEqPrim]

/-- The target parser of parseMoveWhere only builds START, END or a relative
target, never a numeric index. -/
theorem parseMoveTarget_no_numeric (pc : String → Except String ConditionAST)
    (tokens : List ActionToken) (pos : Nat) (path : String) (cond : ConditionAST)
    (act : MoveWhereAction) (h : parseMoveTarget pc tokens pos path cond = .ok act) :
    ∀ i, act.target ≠ MoveTarget.numeric i := by
  unfold parseMoveTarget at h
  dsimp only at h
  split at h
  · split at h
    · cases h
      intro i hc
      cases hc
    · split at h
      · cases h
        intro i hc
        cases hc
      · split at h
        · cases h
          intro i hc
          split at hc <;> cases hc
        · cases h
  · split at h
    · split at h
      · cases h
      · cases h
        intro i hc
        cases hc
    · cases h

/-- C7: the MOVE_WHERE parser collapses a numeric TO target: whenever a parse
succeeds the target is never a numeric index, and whenever the parse reaches
TO followed by a number token with value i, the produced target is START for
i equal to zero and END for every other number. -/
theorem c7_move_where_collapse :
    (∀ (pc : String → Except String ConditionAST) (tokens : List ActionToken)
      (act : MoveWhereAction), parseMoveWhere pc tokens = .ok act →
      ∀ i, act.target ≠ MoveTarget.numeric i) ∧
    (∀ (pc : String → Except String ConditionAST) (tokens : List ActionToken)
      (p : String) (pos1 : Nat) (ct : List ActionToken) (pos3 : Nat)
      (c : ConditionAST) (i : Int),
      parsePathTok tokens (advanceTok tokens 0) = .ok (p, pos1) →
      (currentTok tokens pos1).type = ActionTokType.WHERE →
      collectUntil [ActionTokType.TO, ActionTokType.AFTER, ActionTokType.BEFORE]
        tokens (advanceTok tokens pos1) (tokens.length + 1) = (ct, pos3) →
      pc (reconstructConditionString ct) = .ok c →
      (currentTok tokens pos3).type = ActionTokType.TO →
      (currentTok tokens (advanceTok tokens pos3)).type = ActionTokType.NUMBER →
      (currentTok tokens (advanceTok tokens pos3)).value = TokVal.n i →
      parseMoveWhere pc tokens =
        .ok ⟨p, c, if i = 0 then MoveTarget.start else MoveTarget.endT⟩) := by
  constructor
  · intro pc tokens act h i
    unfold parseMoveWhere at h
    dsimp only at h
    split at h
    · cases h
    · split at h
      · split at h
        · cases h
        · exact parseMoveTarget_no_numeric pc tokens _ _ _ act h i
      · cases h
  · intro pc tokens p pos1 ct pos3 c i hpath hwhere hcollect hpc hto hnum hval
    unfold parseMoveWhere
    dsimp only
    rw [hpath]
    simp only [hwhere, if_pos rfl, hcollect, hpc]
    unfold parseMoveTarget
    dsimp only
    rw [hto, hval, hnum]
    simp [TokVal.n.injEq]

/-- C7 witness: a concrete MOVE_WHERE token stream ending in TO 5 parses to
the END target, and the general theorem applies to it with i equal to 5. -/
theorem c7_move_where_collapse_witness :
    parseMoveWhere (fun _ => Except.ok (ConditionAST.existence [PathSeg.property "w"]
        ExistOp.existsOp))
      [⟨ActionTokType.MOVE_WHERE, TokVal.s "MOVE_WHERE", 0⟩,
       ⟨ActionTokType.IDENTIFIER, TokVal.s "tags", 1⟩,
       ⟨ActionTokType.WHERE, TokVal.s "WHERE", 2⟩,
       ⟨ActionTokType.IDENTIFIER, TokVal.s "status", 3⟩,
       ⟨ActionTokType.EQUALS, TokVal.s "=", 4⟩,
       ⟨ActionTokType.STRING, TokVal.s "done", 5⟩,
       ⟨ActionTokType.TO, TokVal.s "TO", 6⟩,
       ⟨ActionTokType.NUMBER, TokVal.n 5, 7⟩,
       ⟨ActionTokType.EOF, TokVal.s "", 8⟩] =
      .ok ⟨"tags", ConditionAST.existence [PathSeg.property "w"] ExistOp.existsOp,
        if (5 : Int) = 0 then MoveTarget.start else MoveTarget.endT⟩ :=
  c7_move_where_collapse.2
    (fun _ => Except.ok (ConditionAST.existence [PathSeg.property "w"] ExistOp.existsOp))
    _ "tags" 2
    [⟨ActionTokType.IDENTIFIER, TokVal.s "status", 3⟩,
     ⟨ActionTokType.EQUALS, TokVal.s "=", 4⟩,
     ⟨ActionTokType.STRING, TokVal.s "done", 5⟩] 6
    (ConditionAST.existence [PathSeg.property "w"] ExistOp.existsOp) 5
    (by rfl) (by rfl) (by rfl) (by rfl) (by rfl) (by rfl) (by rfl)

/-- C6: with a non-empty condition string that parses and evaluates to
false, the engine returns skipped with modified false and the unchanged
value, and the outcome does not depend on the template resolver, the action
parser or the action executor: the action text is never expanded, parsed or
executed. -/
theorem c6_skipping_soundness {α : Type} (pc : String → Except String ConditionAST)
    (matcher : RegexMatcher) (tmpl : String → Except String String)
    (pa : String → Except String α) (exec : α → JsValue → ActionResult × JsValue)
    (rule : Rule) (data : JsValue) (c : ConditionAST)
    (hne : 0 < (jsTrim rule.condition).length)
    (hpc : pc rule.condition = .ok c)
    (hev : evaluateCondition matcher c data = .ok false) :
    executeRule pc matcher tmpl pa exec rule data =
      { status := .skipped, modified := false, changes := [],
        originalData := some data, newData := some data } ∧
    ∀ (β : Type) (tmpl2 : String → Except String String)
      (pa2 : String → Except String β) (exec2 : β → JsValue → ActionResult × JsValue),
      executeRule pc matcher tmpl2 pa2 exec2 rule data =
        executeRule pc matcher tmpl pa exec rule data := by
  have hcore : ∀ (β : Type) (tmpl2 : String → Except String String)
      (pa2 : String → Except String β)
      (exec2 : β → JsValue → ActionResult × JsValue),
      executeRule pc matcher tmpl2 pa2 exec2 rule data =
        { status := .skipped, modified := false, changes := [],
          originalData := some data, newData := some data } := by
    intro β tmpl2 pa2 exec2
    unfold executeRule executeRuleCore
    simp [hne, hpc, hev]
  exact ⟨hcore α tmpl pa exec, fun β tmpl2 pa2 exec2 =>
    (hcore β tmpl2 pa2 exec2).trans (hcore α tmpl pa exec).symm⟩

/-- C6 witness: a false condition on concrete data skips, independently of a
degenerate executor that would otherwise report a modification. -/
theorem c6_skipping_soundness_witness :
    executeRule (fun _ => Except.ok (ConditionAST.comparison [PathSeg.property "flag"]
        CmpOp.eq (JsValue.num 1)))
      (fun _ _ _ => Except.ok false)
      (fun a => Except.ok a) (fun _ => Except.ok ())
      (fun _ _ => ({ success := true, modified := true, changes := ["boom"] }, JsValue.null))
      ⟨"flag = 1", "SET x 2"⟩ (JsValue.obj [("flag", JsValue.num 2)]) =
      { status := .skipped, modified := false, changes := [],
        originalData := some (JsValue.obj [("flag", JsValue.num 2)]),
        newData := some (JsValue.obj [("flag", JsValue.num 2)]) } :=
  (c6_skipping_soundness
    (fun _ => Except.ok (ConditionAST.comparison [PathSeg.property "flag"]
      CmpOp.eq (JsValue.num 1)))
    (fun _ _ _ => Except.ok false)
    (fun a => Except.ok a) (fun _ => Except.ok ())
    (fun _ _ => ({ success := true, modified := true, changes := ["boom"] }, JsValue.null))
    ⟨"flag = 1", "SET x 2"⟩ (JsValue.obj [("flag", JsValue.num 2)])
    (ConditionAST.comparison [PathSeg.property "flag"] CmpOp.eq (JsValue.num 1))
    (by decide) (by rfl)
    (by
      simp [evaluateCondition, evaluateComparison, resolvePath, lookupKey,
        looseEq, looseEqPrim])).1

/-- A failing executeMerge leaves the value untouched: the only failure
branch returns before any write. -/
theorem executeMerge_fail_unchanged (data : JsValue) (path : List PathSeg)
    (value : List (String × JsValue))
    (h : (executeMerge data path value).1.success = false) :
    (executeMerge data path value).2 = data := by
  unfold executeMerge at h ⊢
  cases hres : resolvePath data path with
  | none => simp_all
  | some v => cases v <;> simp_all

/-- C1: whenever the engine reports status error, the new value it returns
equals the original value, provided the action executor does not mutate the
value on a failed execution (which holds for the in-repository executors; the
thrown-error branch of the engine carries no data at all, so nothing mutated
is exposed either). -/
theorem c1_error_atomicity {α : Type} (pc : String → Except String ConditionAST)
    (matcher : RegexMatcher) (tmpl : String → Except String String)
    (pa : String → Except String α) (exec : α → JsValue → ActionResult × JsValue)
    (rule : Rule) (data : JsValue)
    (hexec : ∀ (a : α) (v : JsValue), (exec a v).1.success = false → (exec a v).2 = v)
    (herr : (executeRule pc matcher tmpl pa exec rule data).status = Status.error) :
    (executeRule pc matcher tmpl pa exec rule data).newData =
      (executeRule pc matcher tmpl pa exec rule data).originalData := by
  have key : ∀ fr, executeRuleCore pc matcher tmpl pa exec rule data = .ok fr →
      fr.status = Status.error → fr.newData = fr.originalData := by
    intro fr hcore hstat
    unfold executeRuleCore at hcore
    dsimp only at hcore
    split at hcore
    · cases hcore
    · split at hcore
      · cases hcore
        simp at hstat
      · split at hcore
        · cases hcore
        · split at hcore
          · cases hcore
          · split at hcore
            · cases hcore
              simp only
              rw [hexec _ _ (by assumption)]
            · split at hcore
              · cases hcore
                simp only at hstat
                split at hstat <;> simp at hstat
              · cases hcore
                simp only at hstat
                split at hstat <;> simp at hstat
  unfold executeRule at herr ⊢
  revert herr
  cases hcore2 : executeRuleCore pc matcher tmpl pa exec rule data with
  | error e => intro _; rfl
  | ok fr => intro herr; exact key fr hcore2 herr

/-- C1 witness: a MERGE onto a non-object field fails; the engine reports
error and returns the untouched value as both original and new data. -/
theorem c1_error_atomicity_witness :
    (executeRule (fun _ => Except.ok (ConditionAST.existence [] ExistOp.existsOp))
      (fun _ _ _ => Except.ok false) (fun a => Except.ok a)
      (fun _ => Except.ok ([PathSeg.property "x"], ([] : List (String × JsValue))))
      (fun a v => executeMerge v a.1 a.2)
      ⟨"", "MERGE x \x7b\x7d"⟩ (JsValue.obj [("x", JsValue.num 1)])).status =
        Status.error ∧
    (executeRule (fun _ => Except.ok (ConditionAST.existence [] ExistOp.existsOp))
      (fun _ _ _ => Except.ok false) (fun a => Except.ok a)
      (fun _ => Except.ok ([PathSeg.property "x"], ([] : List (String × JsValue))))
      (fun a v => executeMerge v a.1 a.2)
      ⟨"", "MERGE x \x7b\x7d"⟩ (JsValue.obj [("x", JsValue.num 1)])).newData =
      (executeRule (fun _ => Except.ok (ConditionAST.existence [] ExistOp.existsOp))
        (fun _ _ _ => Except.ok false) (fun a => Except.ok a)
        (fun _ => Except.ok ([PathSeg.property "x"], ([] : List (String × JsValue))))
        (fun a v => executeMerge v a.1 a.2)
        ⟨"", "MERGE x \x7b\x7d"⟩ (JsValue.obj [("x", JsValue.num 1)])).originalData :=
  ⟨by rfl,
   c1_error_atomicity (fun _ => Except.ok (ConditionAST.existence [] ExistOp.existsOp))
     (fun _ _ _ => Except.ok false) (fun a => Except.ok a)
     (fun _ => Except.ok ([PathSeg.property "x"], ([] : List (String × JsValue))))
     (fun a v => executeMerge v a.1 a.2)
     ⟨"", "MERGE x \x7b\x7d"⟩ (JsValue.obj [("x", JsValue.num 1)])
     (fun a v h => executeMerge_fail_unchanged v a.1 a.2 h) (by rfl)⟩

end ObsidianYaml
